import Mathlib

/-!
# Verification of the KMRL Document Analysis & Routing Pipeline

A shallow embedding, in Lean 4, of the core decision logic of the KMRL
document-processing repository:

* `backend/modules/routing/document_routing.py` (`DocumentRoutingService`),
* `backend/modules/classification/document_classification.py`
  (`DocumentClassificationService`),
* `backend/modules/summarization/text_summarization.py`
  (`SummarizationService`),
* `app.py` (`process_document_pipeline`).

Python strings are modelled as `List Char` / `String`, Python floats of the
decision logic as `ℚ` (every constant compared in the source is an exact
decimal), Python `None`-able values as `Option`, raised-and-caught
exceptions as explicit `Except` values, and external collaborators
(trained ML model, transformer, gensim, SMTP, webhook) as oracle
parameters.  All definitions are executable.
-/

namespace KMRL

/-! ## Python-style character and string primitives -/

/-- Python `\s` / `str.strip` whitespace class (ASCII). -/
def isPyWs (c : Char) : Bool :=
  c = ' ' || c = '\t' || c = '\n' || c = '\x0d' || c = '\x0b' || c = '\x0c'

/-- ASCII lower-casing of one character, as `str.lower` acts on ASCII text. -/
def pyLowerChar (c : Char) : Char :=
  if 'A' ≤ c ∧ c ≤ 'Z' then Char.ofNat (c.toNat + 32) else c

/-- ASCII lower-casing of a string (`str.lower`). -/
def pyLower (s : String) : String := ⟨s.toList.map pyLowerChar⟩

/-- `str.strip()` on a character list: drop leading and trailing whitespace. -/
def stripChars (cs : List Char) : List Char :=
  ((cs.dropWhile isPyWs).reverse.dropWhile isPyWs).reverse

/-- `str.strip()`. -/
def pyStrip (s : String) : String := ⟨stripChars s.toList⟩

/-- Python `needle in hay` substring test on character lists. -/
def containsSub (needle hay : List Char) : Bool :=
  decide (needle <:+: hay)

/-- Python `needle in hay` substring test on strings. -/
def strContains (hay needle : String) : Bool :=
  containsSub needle.toList hay.toList

/-- `any(keyword in text for keyword in keywords)`. -/
def containsAny (hay : String) (needles : List String) : Bool :=
  needles.any (fun n => strContains hay n)

/-- Number of positions of `hay` at which `needle` occurs as a substring
(used to compare the source's behaviour with the spec's counting claim). -/
def countOcc (needle hay : List Char) : Nat :=
  (List.range (hay.length + 1)).countP
    (fun i => needle.isPrefixOf (hay.drop i))

/-- Occurrence count of a keyword in a string. -/
def strCountOcc (hay needle : String) : Nat :=
  countOcc needle.toList hay.toList

/-- Total occurrence count of a keyword list in a string. -/
def totalOcc (hay : String) (needles : List String) : Nat :=
  (needles.map (fun n => strCountOcc hay n)).sum

/-! ## Routing engine — `DocumentRoutingService` -/

/-- One department of `DocumentRoutingService._load_departments`. -/
structure DeptInfo where
  name : String
  email : String
  responsiblePerson : String
  categories : List String
deriving Repr, DecidableEq

/-- The static department table of `_load_departments`, as an ordered
association list (Python dicts preserve insertion order, and
`determine_department` takes the first department owning the category). -/
def departments : List (String × DeptInfo) :=
  [ ("finance", ⟨"Finance Department", "finance@company.com", "Finance Manager",
      ["invoice", "financial_statement", "receipt", "expense_report"]⟩),
    ("hr", ⟨"Human Resources", "hr@company.com", "HR Manager",
      ["resume", "employment_contract", "employee_handbook", "policy_document"]⟩),
    ("legal", ⟨"Legal Department", "legal@company.com", "Legal Counsel",
      ["contract", "legal_document", "agreement", "compliance_document"]⟩),
    ("operations", ⟨"Operations Department", "operations@company.com", "Operations Manager",
      ["report", "technical_manual", "procedure_document"]⟩),
    ("management", ⟨"Management", "management@company.com", "Executive Team",
      ["executive_summary", "strategic_plan", "board_document"]⟩),
    ("archive", ⟨"Document Archive", "archive@company.com", "Document Controller",
      ["other", "unknown"]⟩) ]

/-- `routing_rules['confidence_threshold']`. -/
def confidenceThreshold : ℚ := mkRat 7 10

/-- `routing_rules['fallback_department']`. -/
def fallbackDepartment : String := "archive"

/-- `routing_rules['priority_mapping']`. -/
def priorityMapping : List (String × String) :=
  [ ("invoice", "high"), ("contract", "high"), ("legal_document", "high"),
    ("financial_statement", "medium"), ("resume", "medium"),
    ("report", "low"), ("other", "low") ]

/-- `routing_rules['urgent_keywords']`. -/
def urgentKeywords : List String :=
  ["urgent", "asap", "immediate", "priority", "deadline"]

/-- `routing_rules['sensitive_keywords']`. -/
def sensitiveKeywords : List String :=
  ["confidential", "private", "restricted", "classified"]

/-- The routing decision record built by `_create_routing_result`
(the wall-clock `routing_timestamp` field is outside the embedding). -/
structure RoutingResult where
  departmentId : String
  departmentName : String
  departmentEmail : Option String
  responsiblePerson : Option String
  reason : String
  confidence : ℚ
  priority : String
  isSensitive : Bool
  needsReview : Bool
deriving Repr, DecidableEq

/-- `_create_routing_result(department, reason, confidence, priority='medium',
is_sensitive=False, needs_review=False)`. -/
def createRoutingResult (department reason : String) (confidence : ℚ)
    (priority : String := "medium") (isSensitive : Bool := false)
    (needsReview : Bool := false) : RoutingResult :=
  let deptInfo := (departments.lookup department)
  { departmentId := department
    departmentName := (deptInfo.map DeptInfo.name).getD department
    departmentEmail := deptInfo.map DeptInfo.email
    responsiblePerson := deptInfo.map DeptInfo.responsiblePerson
    reason := reason
    confidence := confidence
    priority := priority
    isSensitive := isSensitive
    needsReview := needsReview }

/-- `_determine_priority(text, category)`: urgent keyword check, then the
static `priority_mapping` with default `'low'`.  `category` is the value
retrieved from the document-info dict and may be Python `None`
(which is a key of no mapping entry). -/
def determinePriority (text : String) (category : Option String) : String :=
  let textLower := pyLower text
  if urgentKeywords.any (fun k => strContains textLower k) then "urgent"
  else match category with
    | none => "low"
    | some c => (priorityMapping.lookup c).getD "low"

/-- `_check_sensitive_content(text)`. -/
def checkSensitiveContent (text : String) : Bool :=
  let textLower := pyLower text
  sensitiveKeywords.any (fun k => strContains textLower k)

/-- The `str(e)` of the Python `TypeError` raised by `None < 0.7`
inside `determine_department` when the stored confidence is `None`. -/
def noneLtFloatMsg : String :=
  "'<' not supported between instances of 'NoneType' and 'float'"

/-- The `str(e)` of the Python `AttributeError` raised by `None.lower()`
inside `_determine_priority` when the stored extracted text is `None`. -/
def noneLowerMsg : String :=
  "'NoneType' object has no attribute 'lower'"

/-- Python `f'Classified as {category}'` where `category` may be `None`. -/
def classifiedAsReason (category : Option String) : String :=
  "Classified as " ++ (match category with | none => "None" | some c => c)

/-- `determine_department(document_info)`.

The three inputs are the values retrieved by
`document_info.get('classification', 'other')`,
`document_info.get('confidence', 0.0)` and
`document_info.get('extracted_text', '')`; in the pipeline the keys are
always present, so a field that was never set arrives as Python `None`
(`Option.none`), not as the `get` default.  A `None` confidence makes the
threshold comparison raise a `TypeError`, and a `None` text makes
`_determine_priority` raise an `AttributeError`; both are caught by the
function's own `except` branch, which returns the archive error result. -/
def determineDepartment (category : Option String) (confidence : Option ℚ)
    (text : Option String) : RoutingResult :=
  match confidence with
  | none =>
      createRoutingResult "archive" ("Error in routing: " ++ noneLtFloatMsg) 0
        "medium" false true
  | some conf =>
      if conf < confidenceThreshold then
        createRoutingResult "archive" "Low confidence classification" conf
          "medium" false true
      else
        let targetDepartment :=
          ((departments.find? (fun d =>
              match category with
              | none => false
              | some c => d.2.categories.contains c)).map Prod.fst).getD
            fallbackDepartment
        match text with
        | none =>
            createRoutingResult "archive" ("Error in routing: " ++ noneLowerMsg) 0
              "medium" false true
        | some t =>
            createRoutingResult targetDepartment (classifiedAsReason category) conf
              (determinePriority t category) (checkSensitiveContent t) false

/-! ## Notification dispatch — `route_document` -/

/-- The notification-relevant configuration read in
`DocumentRoutingService.__init__` (`EMAIL_USER`, `EMAIL_PASSWORD`,
`WEBHOOK_URL`, `NOTIFICATION_METHODS`; the default methods list is
`['email']`). -/
structure RoutingConfig where
  emailUser : Option String
  emailPassword : Option String
  webhookUrl : Option String
  notificationMethods : List String := ["email"]
deriving Repr, DecidableEq

/-- One per-channel outcome record of `_send_email_notification` /
`_send_webhook_notification`. -/
structure NotifOutcome where
  method : String
  success : Bool
  error : Option String
  recipient : Option String
  statusCode : Option Nat
deriving Repr, DecidableEq

/-- `_send_email_notification(notification_data)`.  The SMTP transport is
external; `emailSend` is its outcome (`ok` for a delivered mail, `error e`
for any raised exception, caught by the function's own `except`). -/
def sendEmailNotification (cfg : RoutingConfig) (emailSend : Except String Unit)
    (routing : RoutingResult) : NotifOutcome :=
  if cfg.emailUser = none ∨ cfg.emailPassword = none then
    ⟨"email", false, some "Email credentials not configured", none, none⟩
  else
    match emailSend with
    | .ok _ => ⟨"email", true, none, routing.departmentEmail, none⟩
    | .error e => ⟨"email", false, some e, none, none⟩

/-- `_send_webhook_notification(notification_data)`.  The HTTP POST is
external; `webhookPost` is its outcome (`ok code` for a 2xx response,
`error e` for a raised exception, including `raise_for_status`). -/
def sendWebhookNotification (webhookPost : Except String Nat) : NotifOutcome :=
  match webhookPost with
  | .ok code => ⟨"webhook", true, none, none, some code⟩
  | .error e => ⟨"webhook", false, some e, none, none⟩

/-- The document-info dict handed to the routing stage by the pipeline
(`nullable` columns of the `Document` row arrive as `None`). -/
structure DocumentInfo where
  classification : Option String
  confidence : Option ℚ
  extractedText : Option String
  originalFilename : Option String
deriving Repr, DecidableEq

/-- The dict returned by `route_document`. -/
structure RouteResponse where
  success : Bool
  routingResult : RoutingResult
  notificationsSent : List NotifOutcome
  message : String
deriving Repr, DecidableEq

/-- `route_document(document_info, routing_result=None)`: determine the
department if no pre-determined decision is given, then attempt each
notification channel independently.  The email channel is attempted
whenever `'email'` is among the configured methods; the webhook channel
additionally requires a configured `WEBHOOK_URL`.  Every branch of the
body is itself exception-safe, so the surrounding `except` never fires
and the call always returns a `success: True` record. -/
def routeDocument (cfg : RoutingConfig) (emailSend : Except String Unit)
    (webhookPost : Except String Nat) (docInfo : DocumentInfo)
    (preRouting : Option RoutingResult := none) : RouteResponse :=
  let routingResult := preRouting.getD
    (determineDepartment docInfo.classification docInfo.confidence docInfo.extractedText)
  let notificationResults :=
    (if cfg.notificationMethods.contains "email" then
      [sendEmailNotification cfg emailSend routingResult] else [])
    ++
    (if cfg.notificationMethods.contains "webhook" ∧ cfg.webhookUrl.isSome then
      [sendWebhookNotification webhookPost] else [])
  { success := true
    routingResult := routingResult
    notificationsSent := notificationResults
    message := "Document routed to " ++ routingResult.departmentName }

/-! ## Classification engine — `DocumentClassificationService` -/

/-- `rule_based_classification(text)`: a first-match cascade of boolean
keyword-presence checks over the lower-cased text, each rule carrying a
fixed confidence; `('other', 0.5)` when no rule fires.  A rule with a
nested condition falls through to the next rule when the inner condition
fails. -/
def ruleBasedClassification (text : String) : String × ℚ :=
  let textLower := pyLower text
  if containsAny textLower ["invoice", "bill", "payment", "amount due", "total"] ∧
     containsAny textLower ["$", "usd", "total", "subtotal"] then
    ("invoice", mkRat 8 10)
  else if containsAny textLower ["agreement", "contract", "terms and conditions", "whereas"] then
    ("contract", mkRat 7 10)
  else if containsAny textLower ["experience", "education", "skills", "employment history"] ∧
          containsAny textLower ["university", "degree", "work experience"] then
    ("resume", mkRat 75 100)
  else if containsAny textLower ["court", "legal", "attorney", "law", "plaintiff", "defendant"] then
    ("legal_document", mkRat 7 10)
  else if containsAny textLower ["executive summary", "conclusion", "analysis", "findings"] then
    ("report", mkRat 6 10)
  else
    ("other", mkRat 5 10)

/-- Modelled from the spec: the trained vectorizer+classifier pair is an
external collaborator (§6, "a vectorizer+classifier pair loadable ... as
an opaque blob").  An oracle maps the preprocessed text to a predicted
label together with the maximal class probability, or raises. -/
def MlModel : Type := String → Except String (String × ℚ)

/-- The dict returned by `classify_document`. -/
structure ClassifyResult where
  success : Bool
  error : Option String
  category : String
  confidence : ℚ
  method : Option String
deriving Repr, DecidableEq

/-- The fixed record returned by the `len(text.strip()) < 10` guard of
`classify_document`. -/
def lengthFailureResult : ClassifyResult :=
  ⟨false, some "Text too short for classification", "other", 0, none⟩

/-! ## Text normalizer — `preprocess_text` and its helpers

`re.sub(r'\s+', ' ', ...)` collapses every whitespace run to one space;
`re.sub(r'[^a-zA-Z\s]', '', ...)` keeps only ASCII letters and whitespace;
NLTK's `word_tokenize` on such letters-and-spaces text is whitespace
tokenization (the spec's normalizer "tokenizes on whitespace"). -/

/-- `re.sub(r'\s+', ' ', cs)`: each maximal whitespace run becomes `' '`. -/
def collapseWsAux : Bool → List Char → List Char
  | _, [] => []
  | prevWs, c :: rest =>
    if isPyWs c then
      if prevWs then collapseWsAux true rest
      else ' ' :: collapseWsAux true rest
    else c :: collapseWsAux false rest

/-- `re.sub(r'\s+', ' ', cs)`. -/
def collapseWs (cs : List Char) : List Char := collapseWsAux false cs

/-- Split on single spaces and drop empty pieces: whitespace tokenization
of a string whose whitespace has already been collapsed to `' '`. -/
def wsSplit (cs : List Char) : List (List Char) :=
  (cs.splitOn ' ').filter (fun t => t ≠ [])

/-- Python `str.split()`: split on whitespace runs, dropping empties. -/
def pyWords (cs : List Char) : List (List Char) := wsSplit (collapseWs cs)

/-- Modelled from the spec: the stop-term set (§4.1).  The source loads
NLTK's English stop-word corpus (external data) and falls back to this
hard-coded set, which is the one present in the repository
(`DocumentClassificationService.__init__`). -/
def stopWords : List String :=
  ["the", "a", "an", "and", "or", "but", "in", "on", "at", "to", "for",
   "of", "with", "by"]

/-! ### Porter-style stemmer

Modelled from the spec: the source delegates stemming to NLTK's
`PorterStemmer` (an external library); the spec (§4.1) asks for "a
deterministic, language-specific root-form reduction — e.g., Porter-style
stemming".  The model below implements step 1 (1a, 1b, 1c) of the Porter
algorithm as in the NLTK implementation; the later steps strip long
Latinate suffixes and do not act on the short tokens examined in this
development. -/

/-- Porter consonant test: position `i` of `w` holds a consonant
(`y` counts as a consonant only after a vowel-position). -/
def consAt (w : List Char) : Nat → Bool
  | 0 =>
    match w.get? 0 with
    | none => false
    | some c =>
      if c = 'a' ∨ c = 'e' ∨ c = 'i' ∨ c = 'o' ∨ c = 'u' then false
      else true
  | j + 1 =>
    match w.get? (j + 1) with
    | none => false
    | some c =>
      if c = 'a' ∨ c = 'e' ∨ c = 'i' ∨ c = 'o' ∨ c = 'u' then false
      else if c = 'y' then !(consAt w j)
      else true

/-- The stem contains a vowel. -/
def containsVowel (w : List Char) : Bool :=
  (List.range w.length).any (fun i => !(consAt w i))

/-- The stem ends in a double consonant. -/
def endsDoubleCons (w : List Char) : Bool :=
  2 ≤ w.length ∧ w.getLast? = (w.reverse.get? 1) ∧ consAt w (w.length - 1)

/-- Porter `*o`: the stem ends consonant-vowel-consonant, the final
consonant not being `w`, `x` or `y`. -/
def endsCVC (w : List Char) : Bool :=
  decide (3 ≤ w.length) && consAt w (w.length - 3) && !(consAt w (w.length - 2)) &&
    consAt w (w.length - 1) &&
    (match w.getLast? with
     | some c => !(c == 'w' || c == 'x' || c == 'y')
     | none => false)

/-- Porter measure `m`: the number of vowel-to-consonant transitions. -/
def porterMeasure (w : List Char) : Nat :=
  (List.range w.length).countP
    (fun i => 1 ≤ i ∧ consAt w i ∧ !(consAt w (i - 1)))

/-- `w` ends with suffix `suf`. -/
def endsWith (w suf : List Char) : Bool := decide (suf <:+ w)

/-- Porter step 1a (with NLTK's `ies`-after-one-letter refinement). -/
def porterStep1a (w : List Char) : List Char :=
  if endsWith w "sses".toList then w.dropLast.dropLast
  else if endsWith w "ies".toList then
    (if w.length = 4 then w.dropLast else w.dropLast.dropLast)
  else if endsWith w "ss".toList then w
  else if endsWith w "s".toList then w.dropLast
  else w

/-- The shared clean-up of Porter step 1b after `-ed`/`-ing` removal. -/
def porterStep1bFix (w : List Char) : List Char :=
  if endsWith w "at".toList ∨ endsWith w "bl".toList ∨ endsWith w "iz".toList then
    w ++ ['e']
  else if endsDoubleCons w &&
      (match w.getLast? with
       | some c => !(c == 'l' || c == 's' || c == 'z')
       | none => false) then
    w.dropLast
  else if porterMeasure w = 1 ∧ endsCVC w then w ++ ['e']
  else w

/-- Porter step 1b. -/
def porterStep1b (w : List Char) : List Char :=
  if endsWith w "eed".toList then
    (if 1 ≤ porterMeasure (w.dropLast.dropLast.dropLast) then w.dropLast else w)
  else if endsWith w "ed".toList ∧ containsVowel (w.dropLast.dropLast) then
    porterStep1bFix (w.dropLast.dropLast)
  else if endsWith w "ing".toList ∧ containsVowel (w.dropLast.dropLast.dropLast) then
    porterStep1bFix (w.dropLast.dropLast.dropLast)
  else w

/-- Porter step 1c (NLTK form: final `y` after a consonant, with more
than one preceding letter, becomes `i`). -/
def porterStep1c (w : List Char) : List Char :=
  if endsWith w "y".toList ∧ 2 < w.length ∧ consAt w (w.length - 2) then
    w.dropLast ++ ['i']
  else w

/-- The stemmer model on character lists. -/
def porterStemL (w : List Char) : List Char :=
  porterStep1c (porterStep1b (porterStep1a w))

/-- The stemmer model on strings. -/
def porterStem (s : String) : String := ⟨porterStemL s.toList⟩

/-! ### `DocumentClassificationService.preprocess_text` -/

/-- The tokens surviving the stop-word/length filter of `preprocess_text`:
lower-case, strip non-letters, collapse whitespace, tokenize, keep tokens
that are not stop words and are longer than 2 characters. -/
def keptTokens (text : String) : List (List Char) :=
  (wsSplit (collapseWs
      ((text.toList.map pyLowerChar).filter (fun c => c.isAlpha || isPyWs c)))).filter
    (fun t => ¬ stopWords.contains (⟨t⟩ : String) ∧ 2 < t.length)

/-- `preprocess_text(text)` with an explicit stemmer: the surviving tokens
are stemmed and re-joined with single spaces. -/
def preprocessTextWith (stem : List Char → List Char) (text : String) : String :=
  ⟨(List.intercalate [' '] ((keptTokens text).map stem))⟩

/-- `DocumentClassificationService.preprocess_text(text)`. -/
def preprocessTextC (text : String) : String :=
  preprocessTextWith porterStemL text

/-! ### `classify_document` -/

/-- `classify_document(text)`: the length guard, then the ML strategy if a
model is loaded, then the rule-based strategy.  A raising ML strategy is
caught by the function's `except`, which returns a `success: False`
record carrying `str(e)` in its `error` field and the rule-based
category/confidence. -/
def classifyDocument (ml : Option MlModel) (text : String) : ClassifyResult :=
  if text = "" ∨ (pyStrip text).length < 10 then lengthFailureResult
  else
    match ml with
    | some model =>
      match model (preprocessTextC text) with
      | .ok (category, confidence) =>
          ⟨true, none, category, confidence, some "machine_learning"⟩
      | .error e =>
          let rc := ruleBasedClassification text
          ⟨false, some e, rc.1, rc.2, some "rule_based_fallback"⟩
    | none =>
      let rc := ruleBasedClassification text
      ⟨true, none, rc.1, rc.2, some "rule_based"⟩

/-! ## Summarization engine — `SummarizationService` -/

/-- `SummarizationService.preprocess_text(text)`: collapse whitespace,
strip characters outside `\w\s.!?`, strip the ends. -/
def preprocessTextS (text : String) : String :=
  ⟨stripChars ((collapseWs text.toList).filter
    (fun c => c.isAlphanum || c = '_' || isPyWs c || c = '.' || c = '!' || c = '?'))⟩

/-- Modelled from the spec: NLTK's `sent_tokenize` is an external library;
the model splits after a sentence-ending punctuation mark that is
followed by a space (consuming that space), keeping every other
character. -/
def sentSplitAux : List Char → List Char → List (List Char)
  | [], acc => if acc = [] then [] else [acc.reverse]
  | [c], acc => [(c :: acc).reverse]
  | c :: c' :: rest, acc =>
    if (c = '.' ∨ c = '!' ∨ c = '?') ∧ c' = ' ' then
      (acc.reverse ++ [c]) :: sentSplitAux rest []
    else sentSplitAux (c' :: rest) (c :: acc)

/-- Sentence tokenization of a (preprocessed) string. -/
def sentTokenizeS (s : String) : List (List Char) := sentSplitAux s.toList []

/-- `' '.join` on character-list sentences. -/
def joinSp : List (List Char) → List Char
  | [] => []
  | [x] => x
  | x :: y :: xs => x ++ ' ' :: joinSp (y :: xs)

/-- Keep the first occurrence of each element (Python dict key order). -/
def dedupKeep [DecidableEq α] (l : List α) : List α :=
  l.foldl (fun acc x => if acc.contains x then acc else acc ++ [x]) []

/-- Stable insertion of a scored item into a descending-score list
(matching the stability of Python's `sorted(..., reverse=True)`). -/
def insertDesc (p : List Char × ℚ) : List (List Char × ℚ) → List (List Char × ℚ)
  | [] => [p]
  | q :: rest => if q.2 < p.2 then p :: q :: rest else q :: insertDesc p rest

/-- Stable sort by descending score. -/
def sortByDesc (l : List (List Char × ℚ)) : List (List Char × ℚ) :=
  l.foldr insertDesc []

/-- The content words of a sentence or text used for scoring:
whitespace-tokenize the lower-cased characters and keep alphabetic
non-stop-words (`word not in self.stop_words and word.isalpha()`). -/
def contentWords (cs : List Char) : List (List Char) :=
  (pyWords (cs.map pyLowerChar)).filter
    (fun w => ¬ stopWords.contains (⟨w⟩ : String) ∧ w ≠ [] ∧ w.all Char.isAlpha)

/-- `calculate_sentence_scores(sentences, word_freq)`: a Python dict keyed
by sentence text (duplicates collapse onto one key), mapping each
sentence with at least one content word to the mean frequency of its
content words. -/
def calculateSentenceScores (sentences : List (List Char)) (freq : List Char → ℚ) :
    List (List Char × ℚ) :=
  (dedupKeep sentences).filterMap (fun s =>
    let ws := contentWords s
    if ws = [] then none
    else some (s, (ws.map freq).sum / (ws.length : ℚ)))

/-- `extractive_summarization(text, num_sentences=3)`. -/
def extractiveSummarization (text : String) (numSentences : Nat := 3) : String :=
  let t := preprocessTextS text
  let sentences := sentTokenizeS t
  if sentences.length ≤ numSentences then ⟨joinSp sentences⟩
  else
    let words := (contentWords t.toList).map porterStemL
    let maxFreq : ℚ :=
      if words = [] then 1
      else ((dedupKeep words).map (fun w => (words.count w : ℚ))).foldl max 0
    let freq : List Char → ℚ := fun w =>
      if words.contains w then (words.count w : ℚ) / maxFreq else 0
    let top := (sortByDesc (calculateSentenceScores sentences freq)).take numSentences
    let chosen := (sentences.filter (fun s => top.any (fun p => p.1 = s))).take numSentences
    ⟨joinSp chosen⟩

/-- `keyword_based_summarization(text, num_sentences=3)`; `math.log` is an
external real-valued function, passed in as `logFn`. -/
def keywordBasedSummarization (logFn : ℚ → ℚ) (text : String)
    (numSentences : Nat := 3) : String :=
  let t := preprocessTextS text
  let sentences := sentTokenizeS t
  if sentences.length ≤ numSentences then ⟨joinSp sentences⟩
  else
    let words := contentWords t.toList
    let totalWords : ℚ := words.length
    let importance : List Char → ℚ := fun w =>
      if words.contains w then
        ((words.count w : ℚ) / totalWords) * logFn (totalWords / (words.count w : ℚ))
      else 0
    let top := (sortByDesc (calculateSentenceScores sentences importance)).take numSentences
    let chosen := (sentences.filter (fun s => top.any (fun p => p.1 = s))).take numSentences
    ⟨joinSp chosen⟩

/-- The external collaborators of the summarization service: the optional
transformer pipeline (whose generation-length arguments are internal to
the oracle), gensim's `summarize(text, ratio)`, and `math.log`. -/
structure SummOracles where
  transformer : Option (String → Except String String)
  gensimSummarize : String → ℚ → String
  logFn : ℚ → ℚ

/-- `gensim_summarization(text, ratio=0.3)`: short texts are returned
unchanged (preprocessed); an empty external summary falls back to
extractive summarization of the preprocessed text. -/
def gensimSummarization (oracles : SummOracles) (text : String)
    (ratio : ℚ := mkRat 3 10) : String :=
  let t := preprocessTextS text
  if (pyWords t.toList).length < 20 then t
  else
    let summary := oracles.gensimSummarize t ratio
    if pyStrip summary = "" then extractiveSummarization t 3 else summary

/-- `abstractive_summarization(text, max_length=150, min_length=50)`:
without a transformer, fall back to extractive on the raw text; with one,
preprocess, truncate to 1024 characters, and on any raised failure fall
back to extractive on the truncated text. -/
def abstractiveSummarization (oracles : SummOracles) (text : String) : String :=
  match oracles.transformer with
  | none => extractiveSummarization text 3
  | some model =>
    let t := preprocessTextS text
    let t := if 1024 < t.length then (⟨t.toList.take 1024⟩ : String) else t
    match model t with
    | .ok s => s
    | .error _ => extractiveSummarization t 3

/-- The dict returned by `generate_summary`. -/
structure SummaryResult where
  success : Bool
  error : Option String
  summary : String
  methodUsed : String
  originalLength : Nat
  summaryLength : Nat
  compressionRatio : Option ℚ
deriving Repr, DecidableEq

/-- `generate_summary(text, method='auto')`: the length guard, the `auto`
method selection by word count, the strategy dispatch, and the result
dict with `compression_ratio = len(summary)/len(text)` (the failure
branches carry no `compression_ratio` key). -/
def generateSummary (oracles : SummOracles) (text : String)
    (method : String := "auto") : SummaryResult :=
  if text = "" ∨ (pyStrip text).length < 10 then
    ⟨false, some "Text too short to summarize", text, method,
      text.length, text.length, none⟩
  else
    let m :=
      if method = "auto" then
        (if 500 < (pyWords text.toList).length ∧ oracles.transformer.isSome then
          "abstractive"
        else if 100 < (pyWords text.toList).length then "gensim"
        else "extractive")
      else method
    let summary :=
      if m = "extractive" then extractiveSummarization text 3
      else if m = "abstractive" then abstractiveSummarization oracles text
      else if m = "gensim" then gensimSummarization oracles text (mkRat 3 10)
      else if m = "keyword" then keywordBasedSummarization oracles.logFn text 3
      else extractiveSummarization text 3
    ⟨true, none, summary, m, text.length, summary.length,
      some (mkRat summary.length text.length)⟩

/-! ## Pipeline orchestrator — `app.py: process_document_pipeline` -/

/-- The pipeline-relevant columns of a `Document` row (identity, storage
and timestamp columns are owned by external collaborators). -/
structure Doc where
  status : String
  originalFilename : Option String := none
  extractedText : Option String := none
  classification : Option String := none
  confidenceScore : Option ℚ := none
  summary : Option String := none
  department : Option String := none
deriving Repr, DecidableEq

/-- One `ProcessingLog` row (`module`, `status`, `message`); rows are kept
in insertion order, which is their timestamp order. -/
structure LogEntry where
  module : String
  status : String
  message : String
deriving Repr, DecidableEq

/-- The external collaborators of one pipeline run.  `extraction` is the
outcome of `app.extraction_service.process_document` together with the
MongoDB store: `ok text` for a successful extraction, `error e` when the
extraction returned `success: False` (whose error message is re-raised)
or any step of the extraction block raised. -/
structure PipelineEnv where
  extraction : Except String String
  mlModel : Option MlModel
  summOracles : SummOracles
  routingCfg : RoutingConfig
  emailSend : Except String Unit
  webhookPost : Except String Nat

/-- Everything observable about one pipeline run: the final `Document`
row, the `ProcessingLog` rows in insertion order, and the value of the
routing stage's `route_document` call (`none` when the stage never ran). -/
structure PipelineRun where
  doc : Doc
  logs : List LogEntry
  routing : Option RouteResponse
deriving Repr, DecidableEq

/-- `process_document_pipeline(document_id)` for an existing document.

Stage structure of the source: status → `processing` and a
`pipeline/started` log; the extraction block, whose failure is fatal
(document → `failed`, `extraction/failed` log, return); then the
classification, summarization and routing blocks, each of which logs
`completed` and updates the document on success and logs `failed`
(leaving the field unset) on failure; finally status → `completed` and a
`pipeline/completed` log.  In the embedding no stage body can raise
outside its handled cases, so the outer `except` of the source is
unreachable. -/
def processDocumentPipeline (env : PipelineEnv) (doc0 : Doc) : PipelineRun :=
  let doc1 : Doc := { doc0 with status := "processing" }
  let logs1 : List LogEntry := [⟨"pipeline", "started", "Document processing started"⟩]
  match env.extraction with
  | .error e =>
      { doc := { doc1 with status := "failed" }
        logs := logs1 ++ [⟨"extraction", "failed", e⟩]
        routing := none }
  | .ok text =>
      let doc2 := { doc1 with extractedText := some text }
      let logs2 := logs1 ++
        [⟨"extraction", "completed", "Text extraction completed successfully"⟩]
      -- Step 2: classification (non-fatal)
      let cr := classifyDocument env.mlModel text
      let doc3 := if cr.success then
          { doc2 with classification := some cr.category,
                      confidenceScore := some cr.confidence }
        else doc2
      let logs3 := logs2 ++
        (if cr.success then
          [⟨"classification", "completed",
            "Classified as " ++ cr.category ++ " (confidence: " ++
              toString cr.confidence ++ ")"⟩]
        else [⟨"classification", "failed", "Classification failed"⟩])
      -- Step 3: summarization (non-fatal)
      let sr := generateSummary env.summOracles text "auto"
      let doc4 := if sr.success then { doc3 with summary := some sr.summary } else doc3
      let logs4 := logs3 ++
        (if sr.success then
          [⟨"summarization", "completed",
            "Summary generated using " ++ sr.methodUsed ++ " method"⟩]
        else [⟨"summarization", "failed", (sr.error.getD "Summarization failed")⟩])
      -- Step 4: routing (non-fatal; `route_document` always succeeds)
      let rresp := routeDocument env.routingCfg env.emailSend env.webhookPost
        { classification := doc4.classification
          confidence := doc4.confidenceScore
          extractedText := doc4.extractedText
          originalFilename := doc4.originalFilename } none
      let doc5 := { doc4 with department := some rresp.routingResult.departmentId }
      let logs5 := logs4 ++
        [⟨"routing", "completed",
          "Routed to " ++ rresp.routingResult.departmentName⟩]
      { doc := { doc5 with status := "completed" }
        logs := logs5 ++
          [⟨"pipeline", "completed", "Document processing completed successfully"⟩]
        routing := some rresp }

/-! ## Helper lemmas -/

/-- The configured threshold is the decimal `0.7`. -/
theorem confidenceThreshold_eq : confidenceThreshold = 7/10 := by
  norm_num [confidenceThreshold, Rat.mkRat_eq_divInt, Rat.divInt_eq_div]

/-- `dropWhile` never lengthens a list. -/
theorem dropWhile_length_le {α : Type} (p : α → Bool) (cs : List α) :
    (cs.dropWhile p).length ≤ cs.length := by
  induction cs with
  | nil => simp
  | cons c cs ih =>
    rw [List.dropWhile_cons]
    split
    · exact le_trans ih (by simp)
    · simp

/-- `str.strip()` never lengthens a string. -/
theorem stripChars_length_le (cs : List Char) :
    (stripChars cs).length ≤ cs.length := by
  unfold stripChars
  calc ((cs.dropWhile isPyWs).reverse.dropWhile isPyWs).reverse.length
      = ((cs.dropWhile isPyWs).reverse.dropWhile isPyWs).length := by
        rw [List.length_reverse]
    _ ≤ (cs.dropWhile isPyWs).reverse.length := dropWhile_length_le ..
    _ = (cs.dropWhile isPyWs).length := by rw [List.length_reverse]
    _ ≤ cs.length := dropWhile_length_le ..

/-- Whitespace collapsing never lengthens a string. -/
theorem collapseWsAux_length_le (cs : List Char) :
    ∀ b, (collapseWsAux b cs).length ≤ cs.length := by
  induction cs with
  | nil => intro b; simp [collapseWsAux]
  | cons c cs ih =>
    intro b
    simp only [collapseWsAux]
    split
    · split
      · exact le_trans (ih true) (by simp)
      · simpa using ih true
    · simpa using ih false

/-- The summarization preprocessor never lengthens its input. -/
theorem preprocessTextS_length_le (text : String) :
    (preprocessTextS text).length ≤ text.length := by
  show (stripChars _).length ≤ text.toList.length
  refine le_trans (stripChars_length_le _) (le_trans (List.length_filter_le _ _) ?_)
  exact collapseWsAux_length_le _ _

/-- Length of `' '.join` over a non-empty tail. -/
theorem joinSp_length_cons (x : List Char) (l : List (List Char)) :
    (joinSp (x :: l)).length =
      x.length + (if l = [] then 0 else 1 + (joinSp l).length) := by
  cases l with
  | nil => simp [joinSp]
  | cons y ys => simp [joinSp, List.length_append]; omega

/-- `' '.join` of a sublist of sentences is no longer than `' '.join` of
all of them. -/
theorem joinSp_length_le_of_sublist {l' l : List (List Char)}
    (h : List.Sublist l' l) : (joinSp l').length ≤ (joinSp l).length := by
  induction h with
  | slnil => simp
  | cons a h ih =>
    refine le_trans ih ?_
    rename_i l₁ l₂
    cases l₂ with
    | nil => simp [joinSp]
    | cons y ys =>
      conv_rhs => rw [joinSp_length_cons]
      rw [if_neg (by simp : ¬ (y :: ys) = [])]
      omega
  | cons₂ a h ih =>
    rename_i l₁ l₂
    rw [joinSp_length_cons, joinSp_length_cons]
    have hne : l₁ ≠ [] → l₂ ≠ [] := by
      intro h1 h2
      subst h2
      exact h1 (List.eq_nil_of_sublist_nil h)
    split
    · split <;> omega
    · rw [if_neg (hne (by assumption))]; omega

/-- The sentence splitter, joined back with spaces, never exceeds the
length of its input (plus the pending accumulator). -/
theorem sentSplitAux_joinSp_le (cs acc : List Char) :
    (joinSp (sentSplitAux cs acc)).length ≤ cs.length + acc.length := by
  induction cs, acc using sentSplitAux.induct with
  | case1 =>
    simp [sentSplitAux, joinSp]
  | case2 acc hacc =>
    simp [sentSplitAux, hacc, joinSp]
  | case3 c acc =>
    simp [sentSplitAux, joinSp]
    omega
  | case4 c c' rest acc hcond ih =>
    simp only [sentSplitAux, if_pos hcond]
    rw [joinSp_length_cons]
    simp only [List.length_nil] at ih
    simp only [List.length_append, List.length_reverse, List.length_cons,
      List.length_nil]
    split <;> omega
  | case5 c c' rest acc hcond ih =>
    simp only [sentSplitAux, if_neg hcond]
    simp only [List.length_cons] at ih ⊢
    omega

/-- Sentence tokenization of a string, re-joined, never exceeds the
string's length. -/
theorem sentTokenizeS_joinSp_le (s : String) :
    (joinSp (sentTokenizeS s)).length ≤ s.length := by
  simpa using sentSplitAux_joinSp_le s.toList []

/-- The extractive strategy never lengthens the preprocessed text. -/
theorem extractiveSummarization_le_preprocessed (text : String) (n : Nat) :
    (extractiveSummarization text n).length ≤ (preprocessTextS text).length := by
  unfold extractiveSummarization
  dsimp only
  split
  · exact sentTokenizeS_joinSp_le _
  · refine le_trans (joinSp_length_le_of_sublist ?_) (sentTokenizeS_joinSp_le _)
    exact List.Sublist.trans (List.take_sublist _ _) (List.filter_sublist _)

/-- The extractive strategy never lengthens its input. -/
theorem extractiveSummarization_length_le (text : String) (n : Nat) :
    (extractiveSummarization text n).length ≤ text.length :=
  le_trans (extractiveSummarization_le_preprocessed text n)
    (preprocessTextS_length_le text)

/-- The keyword strategy never lengthens its input. -/
theorem keywordBasedSummarization_length_le (logFn : ℚ → ℚ) (text : String)
    (n : Nat) : (keywordBasedSummarization logFn text n).length ≤ text.length := by
  refine le_trans ?_ (preprocessTextS_length_le text)
  unfold keywordBasedSummarization
  dsimp only
  split
  · exact sentTokenizeS_joinSp_le _
  · refine le_trans (joinSp_length_le_of_sublist ?_) (sentTokenizeS_joinSp_le _)
    exact List.Sublist.trans (List.take_sublist _ _) (List.filter_sublist _)

/-- The gensim strategy never lengthens its input, provided the external
text-rank algorithm never lengthens its own input. -/
theorem gensimSummarization_length_le (oracles : SummOracles) (text : String)
    (ratio : ℚ) (hg : ∀ s r, (oracles.gensimSummarize s r).length ≤ s.length) :
    (gensimSummarization oracles text ratio).length ≤ text.length := by
  unfold gensimSummarization
  dsimp only
  split
  · exact preprocessTextS_length_le text
  · split
    · exact le_trans (extractiveSummarization_length_le _ 3)
        (preprocessTextS_length_le text)
    · exact le_trans (hg _ _) (preprocessTextS_length_le text)

/-- `mkRat` over natural numbers is their rational quotient. -/
theorem mkRat_natCast_eq_div (a b : Nat) :
    (mkRat a b : ℚ) = (a : ℚ) / (b : ℚ) := by
  rw [Rat.mkRat_eq_divInt, Rat.divInt_eq_div]
  norm_num

/-- A map that fixes every element of a list fixes the list. -/
theorem map_fix {α : Type} (f : α → α) (l : List α) (h : ∀ c ∈ l, f c = c) :
    l.map f = l := by
  induction l with
  | nil => rfl
  | cons c cs ih => simp_all

/-- `intercalate` over a two-or-more-element list of sentences. -/
theorem intercalate_space_cons_cons (y z : List Char) (zs : List (List Char)) :
    List.intercalate [' '] (y :: z :: zs) =
      y ++ ' ' :: List.intercalate [' '] (z :: zs) := by
  simp [List.intercalate, List.intersperse_cons_cons]

/-- A character map fixing the space and every word character fixes the
space-joined word list. -/
theorem map_intercalate_fix (f : Char → Char) (hf : f ' ' = ' ')
    (ws : List (List Char)) (h : ∀ w ∈ ws, ∀ c ∈ w, f c = c) :
    (List.intercalate [' '] ws).map f = List.intercalate [' '] ws := by
  induction ws with
  | nil => rfl
  | cons w ws' ih =>
    cases ws' with
    | nil =>
      simp only [List.intercalate, List.intersperse_singleton, List.flatten,
        List.append_nil]
      exact map_fix f w (h w (by simp))
    | cons w' ws'' =>
      rw [intercalate_space_cons_cons, List.map_append, List.map_cons, hf,
        map_fix f w (h w (by simp)), ih (fun v hv => h v (by simp [hv]))]

/-- A character filter keeping the space and every word character keeps
the space-joined word list intact. -/
theorem filter_intercalate_keep (p : Char → Bool) (hp : p ' ' = true)
    (ws : List (List Char)) (h : ∀ w ∈ ws, ∀ c ∈ w, p c = true) :
    (List.intercalate [' '] ws).filter p = List.intercalate [' '] ws := by
  induction ws with
  | nil => rfl
  | cons w ws' ih =>
    cases ws' with
    | nil =>
      simp only [List.intercalate, List.intersperse_singleton, List.flatten,
        List.append_nil]
      exact List.filter_eq_self.mpr (h w (by simp))
    | cons w' ws'' =>
      rw [intercalate_space_cons_cons, List.filter_append, List.filter_cons_of_pos hp,
        List.filter_eq_self.mpr (h w (by simp)), ih (fun v hv => h v (by simp [hv]))]

/-- Collapsing whitespace leaves a whitespace-free block (followed by
anything) untouched, under either flag when the block is non-empty. -/
theorem collapseWsAux_nows_block (w : List Char)
    (hw : ∀ c ∈ w, isPyWs c = false) (rest : List Char) :
    collapseWsAux false (w ++ rest) = w ++ collapseWsAux false rest ∧
    (w ≠ [] → collapseWsAux true (w ++ rest) = w ++ collapseWsAux false rest) := by
  induction w with
  | nil => exact ⟨rfl, fun hne => absurd rfl hne⟩
  | cons c w' ih =>
    have hc : isPyWs c = false := hw c (by simp)
    have ih' := ih (fun d hd => hw d (by simp [hd]))
    refine ⟨?_, fun _ => ?_⟩ <;>
      simp only [List.cons_append, collapseWsAux, hc, Bool.false_eq_true,
        if_false, List.append_eq, ih'.1]

/-- Collapsing whitespace fixes a space-joined list of non-empty,
whitespace-free words. -/
theorem collapse_intercalate (ws : List (List Char))
    (hne : ∀ w ∈ ws, w ≠ []) (hw : ∀ w ∈ ws, ∀ c ∈ w, isPyWs c = false) :
    collapseWsAux false (List.intercalate [' '] ws) =
      List.intercalate [' '] ws ∧
    (ws ≠ [] → collapseWsAux true (List.intercalate [' '] ws) =
      List.intercalate [' '] ws) := by
  induction ws with
  | nil => exact ⟨rfl, fun hne' => absurd rfl hne'⟩
  | cons w ws' ih =>
    have hwne := hne w (by simp)
    have hwc := hw w (by simp)
    cases ws' with
    | nil =>
      simp only [List.intercalate, List.intersperse_singleton, List.flatten,
        List.append_nil]
      have := collapseWsAux_nows_block w hwc []
      rw [List.append_nil] at this
      exact ⟨by rw [this.1]; simp [collapseWsAux],
        fun _ => by rw [this.2 hwne]; simp [collapseWsAux]⟩
    | cons w' ws'' =>
      have ih' := ih (fun v hv => hne v (by simp [hv]))
        (fun v hv => hw v (by simp [hv]))
      have hblock := collapseWsAux_nows_block w hwc
        (' ' :: List.intercalate [' '] (w' :: ws''))
      have hspace : collapseWsAux false
          (' ' :: List.intercalate [' '] (w' :: ws'')) =
          ' ' :: collapseWsAux true (List.intercalate [' '] (w' :: ws'')) := by
        simp [collapseWsAux, show isPyWs ' ' = true from rfl]
      have htail : collapseWsAux true (List.intercalate [' '] (w' :: ws'')) =
          List.intercalate [' '] (w' :: ws'') := ih'.2 (by simp)
      rw [intercalate_space_cons_cons]
      exact ⟨by rw [hblock.1, hspace, htail],
        fun _ => by rw [hblock.2 hwne, hspace, htail]⟩

/-- Whitespace splitting is the left inverse of space-joining non-empty,
space-free words. -/
theorem wsSplit_intercalate (ws : List (List Char))
    (hne : ∀ w ∈ ws, w ≠ []) (hsp : ∀ w ∈ ws, ' ' ∉ w) :
    wsSplit (List.intercalate [' '] ws) = ws := by
  cases ws with
  | nil => rfl
  | cons w ws' =>
    unfold wsSplit
    rw [List.splitOn_intercalate (w :: ws') ' ' hsp (by simp)]
    exact List.filter_eq_self.mpr (fun v hv => by simpa using hne v hv)

/-- The token pipeline of `preprocess_text` is the identity on a
space-join of words that are each non-empty, lower-case-fixed, made of
kept characters, whitespace-free, longer than two characters and not
stop words. -/
theorem keptTokens_intercalate (ws : List (List Char))
    (h1 : ∀ w ∈ ws, w ≠ [])
    (h2 : ∀ w ∈ ws, ∀ c ∈ w, pyLowerChar c = c)
    (h3 : ∀ w ∈ ws, ∀ c ∈ w, (c.isAlpha || isPyWs c) = true)
    (h4 : ∀ w ∈ ws, ∀ c ∈ w, isPyWs c = false)
    (h5 : ∀ w ∈ ws, ¬ stopWords.contains (⟨w⟩ : String) ∧ 2 < w.length) :
    keptTokens ⟨List.intercalate [' '] ws⟩ = ws := by
  unfold keptTokens
  show (wsSplit (collapseWs (((List.intercalate [' '] ws).map pyLowerChar).filter
    (fun c => c.isAlpha || isPyWs c)))).filter _ = ws
  rw [map_intercalate_fix pyLowerChar (by decide) ws h2,
    filter_intercalate_keep _ (by decide) ws h3]
  show (wsSplit (collapseWsAux false _)).filter _ = ws
  rw [(collapse_intercalate ws h1 h4).1,
    wsSplit_intercalate ws h1 (fun w hw hin => by
      have := h4 w hw ' ' hin
      simp [isPyWs] at this)]
  exact List.filter_eq_self.mpr (fun w hw => by
    have := h5 w hw
    simp only [decide_eq_true_eq]
    exact ⟨this.1, this.2⟩)

/-- Every outcome produced by `_send_email_notification` is tagged
`'email'`. -/
theorem sendEmailNotification_method (cfg : RoutingConfig)
    (es : Except String Unit) (r : RoutingResult) :
    (sendEmailNotification cfg es r).method = "email" := by
  unfold sendEmailNotification
  split
  · rfl
  · cases es <;> rfl

/-- Every outcome produced by `_send_webhook_notification` is tagged
`'webhook'`. -/
theorem sendWebhookNotification_method (wp : Except String Nat) :
    (sendWebhookNotification wp).method = "webhook" := by
  cases wp <;> rfl

/-! ## Claims -/

/-- **C1.**  For every call to `determine_department` with confidence
strictly below the configured threshold `0.7`, the returned decision has
department equal to the fallback department `'archive'` and
`needs_review = True`, for every category and every full text. -/
theorem C1_low_confidence_forces_fallback (category : Option String)
    (text : Option String) (conf : ℚ) (h : conf < 7/10) :
    (determineDepartment category (some conf) text).departmentId = "archive" ∧
    (determineDepartment category (some conf) text).needsReview = true := by
  have h' : conf < confidenceThreshold := confidenceThreshold_eq ▸ h
  simp [determineDepartment, if_pos h', createRoutingResult]

/-- Witness for C1 at confidence `0.2`, category `'invoice'`, a concrete
text. -/
theorem C1_low_confidence_forces_fallback_witness :
    (determineDepartment (some "invoice") (some (2/10)) (some "pay now")).departmentId
        = "archive" ∧
    (determineDepartment (some "invoice") (some (2/10)) (some "pay now")).needsReview
        = true :=
  C1_low_confidence_forces_fallback (some "invoice") (some "pay now") (2/10)
    (by norm_num)

/-- **C2.**  A run whose extraction stage fails ends with document status
`'failed'`, a failed extraction log entry, no routing call, and no
classification/summarization/routing log entry. -/
theorem C2_extraction_failure_is_fatal (env : PipelineEnv) (doc0 : Doc)
    (e : String) (h : env.extraction = .error e) :
    (processDocumentPipeline env doc0).doc.status = "failed" ∧
    (⟨"extraction", "failed", e⟩ : LogEntry) ∈ (processDocumentPipeline env doc0).logs ∧
    (processDocumentPipeline env doc0).routing = none ∧
    (∀ l ∈ (processDocumentPipeline env doc0).logs,
      l.module ≠ "classification" ∧ l.module ≠ "summarization" ∧
        l.module ≠ "routing") := by
  unfold processDocumentPipeline
  rw [h]
  refine ⟨rfl, by simp, rfl, ?_⟩
  intro l hl
  simp only [List.cons_append, List.nil_append, List.mem_cons,
    List.not_mem_nil, or_false] at hl
  rcases hl with rfl | rfl <;> exact ⟨by simp, by simp, by simp⟩

/-- Witness for C2: a concrete failing extraction. -/
theorem C2_extraction_failure_is_fatal_witness :
    (processDocumentPipeline
        ⟨.error "File not found", none, ⟨none, fun s _ => s, fun _ => 0⟩,
          ⟨none, none, none, ["email"]⟩, .ok (), .ok 200⟩
        ⟨"pending", none, none, none, none, none, none⟩).doc.status = "failed" ∧
    (⟨"extraction", "failed", "File not found"⟩ : LogEntry) ∈
      (processDocumentPipeline
        ⟨.error "File not found", none, ⟨none, fun s _ => s, fun _ => 0⟩,
          ⟨none, none, none, ["email"]⟩, .ok (), .ok 200⟩
        ⟨"pending", none, none, none, none, none, none⟩).logs ∧
    (processDocumentPipeline
        ⟨.error "File not found", none, ⟨none, fun s _ => s, fun _ => 0⟩,
          ⟨none, none, none, ["email"]⟩, .ok (), .ok 200⟩
        ⟨"pending", none, none, none, none, none, none⟩).routing = none ∧
    (∀ l ∈ (processDocumentPipeline
        ⟨.error "File not found", none, ⟨none, fun s _ => s, fun _ => 0⟩,
          ⟨none, none, none, ["email"]⟩, .ok (), .ok 200⟩
        ⟨"pending", none, none, none, none, none, none⟩).logs,
      l.module ≠ "classification" ∧ l.module ≠ "summarization" ∧
        l.module ≠ "routing") :=
  C2_extraction_failure_is_fatal _ _ "File not found" rfl

/-- **C7, counterexample.**  A routing decision whose full text contains
the urgent keyword `'urgent'` but whose confidence is below the threshold
gets the default priority `'medium'`, not `'urgent'`: the urgent-keyword
rule only runs on the high-confidence path. -/
theorem C7_counterexample :
    strContains (pyLower "urgent: please review") "urgent" = true ∧
    (determineDepartment (some "invoice") (some 0)
        (some "urgent: please review")).priority = "medium" ∧
    (determineDepartment (some "invoice") (some 0)
        (some "urgent: please review")).priority ≠ "urgent" := by
  refine ⟨by decide, by decide, by decide⟩

/-- **C7, amended.**  For decisions taken with confidence at or above the
threshold, the priority is `'urgent'` when the lower-cased full text
contains an urgent keyword, and otherwise the static category→priority
mapping value, defaulting to `'low'` for unmapped (or absent) categories;
low-confidence and error decisions instead carry the default `'medium'`. -/
theorem C7_high_confidence_priority (category : Option String) (t : String)
    (conf : ℚ) (h : 7/10 ≤ conf) :
    (determineDepartment category (some conf) (some t)).priority =
      (if urgentKeywords.any (fun k => strContains (pyLower t) k) then "urgent"
       else match category with
            | none => "low"
            | some c => (priorityMapping.lookup c).getD "low") := by
  have h' : ¬ conf < confidenceThreshold := not_lt.mpr (confidenceThreshold_eq ▸ h)
  simp [determineDepartment, if_neg h', createRoutingResult, determinePriority]

/-- Witness for the amended C7: urgent keyword at high confidence. -/
theorem C7_high_confidence_priority_witness :
    (determineDepartment (some "report") (some (4/5))
        (some "deadline is tomorrow")).priority = "urgent" := by
  have h := C7_high_confidence_priority (some "report") "deadline is tomorrow"
    (4/5) (by norm_num)
  rw [h]; decide

/-- **C8, counterexample.**  With the default `NOTIFICATION_METHODS =
['email']` and no email credentials configured, `route_document` returns
a *failed* outcome for the email channel instead of skipping it. -/
theorem C8_counterexample :
    (routeDocument ⟨none, none, none, ["email"]⟩ (.ok ()) (.ok 200)
        ⟨some "invoice", some (9/10), some "please pay", none⟩
        none).notificationsSent =
      [⟨"email", false, some "Email credentials not configured", none, none⟩] := by
  decide

/-- **C8, amended.**  `route_document` never raises (it always returns a
`success: True` record) and yields exactly one outcome per attempted
channel: one email outcome whenever `'email'` is a configured method
(even without credentials, in which case the outcome is a failure, not a
skip) and one webhook outcome whenever `'webhook'` is configured *and* a
webhook URL is present (an absent URL skips the channel); the outcome of
each channel is independent of the other channel's transport. -/
theorem C8_dispatch_fanout (cfg : RoutingConfig) (es es' : Except String Unit)
    (wp wp' : Except String Nat) (d : DocumentInfo) (pre : Option RoutingResult) :
    (routeDocument cfg es wp d pre).success = true ∧
    ((routeDocument cfg es wp d pre).notificationsSent.countP
        (fun o => o.method == "email") =
      if cfg.notificationMethods.contains "email" then 1 else 0) ∧
    ((routeDocument cfg es wp d pre).notificationsSent.countP
        (fun o => o.method == "webhook") =
      if cfg.notificationMethods.contains "webhook" ∧ cfg.webhookUrl.isSome
      then 1 else 0) ∧
    ((routeDocument cfg es wp d pre).notificationsSent.filter
        (fun o => o.method == "email") =
      (routeDocument cfg es wp' d pre).notificationsSent.filter
        (fun o => o.method == "email")) ∧
    ((routeDocument cfg es wp d pre).notificationsSent.filter
        (fun o => o.method == "webhook") =
      (routeDocument cfg es' wp d pre).notificationsSent.filter
        (fun o => o.method == "webhook")) := by
  have hem := sendEmailNotification_method cfg es
  have hem' := sendEmailNotification_method cfg es'
  have hwm := sendWebhookNotification_method wp
  have hwm' := sendWebhookNotification_method wp'
  constructor
  · rfl
  · unfold routeDocument
    split <;> split <;>
      simp_all [List.countP_append, List.countP_cons, List.filter_append]

/-- **C3, counterexample.**  A run whose extraction yields `"short"` (so
classification fails on length): routing runs and lands on the archive
with `needs_review = True`, but through `determine_department`'s error
path — the stored classification/confidence are Python `None`, the
threshold comparison raises, and the reason is the routing error message,
not the `'Low confidence classification'` reason the low-confidence path
(effective input `category='other'`, `confidence=0.0`) would produce. -/
theorem C3_counterexample :
    ((processDocumentPipeline
        ⟨.ok "short", none, ⟨none, fun s _ => s, fun _ => 0⟩,
          ⟨none, none, none, []⟩, .ok (), .ok 200⟩
        ⟨"pending", none, none, none, none, none, none⟩).routing.map
      (fun r => r.routingResult.reason)) =
      some ("Error in routing: " ++ noneLtFloatMsg) ∧
    (determineDepartment (some "other") (some 0) (some "short")).reason =
      "Low confidence classification" ∧
    ("Error in routing: " ++ noneLtFloatMsg) ≠ "Low confidence classification" := by
  refine ⟨by decide, by decide, by decide⟩

/-- **C3, amended.**  If extraction succeeds but classification fails (on
a document whose classification fields start unset), the final status is
`'completed'`, the category field stays unset, a failed classification
log entry is written, and routing still runs and assigns the fallback
department `'archive'` with `needs_review = True` — but via the routing
error path (the stored `None` confidence fails the threshold comparison
and is caught), with reason `'Error in routing: …'`, not via the
low-confidence path with effective inputs `'other'`/`0.0`. -/
theorem C3_classification_failure_path (env : PipelineEnv) (doc0 : Doc)
    (t : String) (hx : env.extraction = .ok t)
    (hc : (classifyDocument env.mlModel t).success = false)
    (h0 : doc0.classification = none) (h0' : doc0.confidenceScore = none) :
    (processDocumentPipeline env doc0).doc.status = "completed" ∧
    (processDocumentPipeline env doc0).doc.classification = none ∧
    (⟨"classification", "failed", "Classification failed"⟩ : LogEntry) ∈
      (processDocumentPipeline env doc0).logs ∧
    (∃ l ∈ (processDocumentPipeline env doc0).logs,
      l.module = "routing" ∧ l.status = "completed") ∧
    (processDocumentPipeline env doc0).doc.department = some "archive" ∧
    (∃ resp, (processDocumentPipeline env doc0).routing = some resp ∧
      resp.routingResult.departmentId = "archive" ∧
      resp.routingResult.needsReview = true ∧
      resp.routingResult.reason = "Error in routing: " ++ noneLtFloatMsg) := by
  unfold processDocumentPipeline
  rw [hx]
  simp only [hc, Bool.false_eq_true, if_false]
  cases hs : (generateSummary env.summOracles t "auto").success <;>
    simp_all [routeDocument, determineDepartment, createRoutingResult, h0, h0']

/-- Witness for the amended C3: extraction returns a five-character text,
on which classification fails its length guard. -/
theorem C3_classification_failure_path_witness :
    (processDocumentPipeline
        ⟨.ok "short", none, ⟨none, fun s _ => s, fun _ => 0⟩,
          ⟨none, none, none, []⟩, .ok (), .ok 200⟩
        ⟨"pending", none, none, none, none, none, none⟩).doc.status = "completed" ∧
    (processDocumentPipeline
        ⟨.ok "short", none, ⟨none, fun s _ => s, fun _ => 0⟩,
          ⟨none, none, none, []⟩, .ok (), .ok 200⟩
        ⟨"pending", none, none, none, none, none, none⟩).doc.classification = none ∧
    (⟨"classification", "failed", "Classification failed"⟩ : LogEntry) ∈
      (processDocumentPipeline
        ⟨.ok "short", none, ⟨none, fun s _ => s, fun _ => 0⟩,
          ⟨none, none, none, []⟩, .ok (), .ok 200⟩
        ⟨"pending", none, none, none, none, none, none⟩).logs ∧
    (∃ l ∈ (processDocumentPipeline
        ⟨.ok "short", none, ⟨none, fun s _ => s, fun _ => 0⟩,
          ⟨none, none, none, []⟩, .ok (), .ok 200⟩
        ⟨"pending", none, none, none, none, none, none⟩).logs,
      l.module = "routing" ∧ l.status = "completed") ∧
    (processDocumentPipeline
        ⟨.ok "short", none, ⟨none, fun s _ => s, fun _ => 0⟩,
          ⟨none, none, none, []⟩, .ok (), .ok 200⟩
        ⟨"pending", none, none, none, none, none, none⟩).doc.department =
      some "archive" ∧
    (∃ resp, (processDocumentPipeline
        ⟨.ok "short", none, ⟨none, fun s _ => s, fun _ => 0⟩,
          ⟨none, none, none, []⟩, .ok (), .ok 200⟩
        ⟨"pending", none, none, none, none, none, none⟩).routing = some resp ∧
      resp.routingResult.departmentId = "archive" ∧
      resp.routingResult.needsReview = true ∧
      resp.routingResult.reason = "Error in routing: " ++ noneLtFloatMsg) :=
  C3_classification_failure_path _ _ "short" rfl (by decide) rfl rfl

/-- **C4, counterexample.**  The rule-based classifier is not a
keyword-occurrence-counting argmax: on a text in which the invoice
keyword list occurs five times and the contract keyword list once, it
still returns `'contract'` (the invoice rule's nested currency condition
fails and control falls through to the contract rule), although
`'invoice'` both scores higher and precedes `'contract'` in enumeration
order. -/
theorem C4_counterexample :
    ruleBasedClassification "invoice invoice invoice bill payment whereas" =
      ("contract", mkRat 7 10) ∧
    totalOcc (pyLower "invoice invoice invoice bill payment whereas")
      ["invoice", "bill", "payment", "amount due", "total"] = 5 ∧
    totalOcc (pyLower "invoice invoice invoice bill payment whereas")
      ["agreement", "contract", "terms and conditions", "whereas"] = 1 := by
  refine ⟨by decide, by decide, by decide⟩

/-- **C4, amended.**  The rule-based strategy is a first-match cascade of
boolean keyword-presence checks in the fixed order invoice, contract,
resume, legal_document, report — each with a fixed confidence (0.8, 0.7,
0.75, 0.7, 0.6) — returning `('other', 0.5)` when no rule fires; on
`"INVOICE #1 Total Due: $500.00"` it returns `'invoice'` with confidence
`0.8 ≥ 0.7`. -/
theorem C4_rule_based_cascade :
    ruleBasedClassification "INVOICE #1 Total Due: $500.00" =
      ("invoice", mkRat 8 10) ∧
    (7/10 : ℚ) ≤ mkRat 8 10 ∧
    ∀ text : String, ruleBasedClassification text ∈
      [("invoice", mkRat 8 10), ("contract", mkRat 7 10), ("resume", mkRat 75 100),
       ("legal_document", mkRat 7 10), ("report", mkRat 6 10),
       ("other", mkRat 5 10)] := by
  refine ⟨by decide, ?_, ?_⟩
  · rw [Rat.mkRat_eq_divInt, Rat.divInt_eq_div]; norm_num
  · intro text
    simp only [ruleBasedClassification]
    split_ifs <;> simp

/-- **C5, counterexample.**  `classify_document` tests the length of the
*stripped* text: the ten-character, non-empty input `"  hello   "` is
neither empty nor shorter than 10 characters, yet classification fails
with the length failure. -/
theorem C5_counterexample :
    (classifyDocument none "  hello   ").success = false ∧
    (classifyDocument none "  hello   ").error =
      some "Text too short for classification" ∧
    ("  hello   " : String).length = 10 ∧ ("  hello   " : String) ≠ "" := by
  refine ⟨by decide, by decide, by decide, by decide⟩

/-- **C5, amended.**  For every ML-model oracle and every text,
`classify_document` returns the length-failure result — `success: False`,
`error: 'Text too short for classification'`, category `'other'`,
confidence `0.0`, and no strategy invoked (the result does not depend on
the model) — exactly when the *whitespace-stripped* text is shorter than
10 characters. -/
theorem C5_length_failure_iff (ml : Option MlModel) (text : String) :
    classifyDocument ml text = lengthFailureResult ↔
      (pyStrip text).length < 10 := by
  constructor
  · intro h
    by_contra hlen
    have hne : ¬ (text = "" ∨ (pyStrip text).length < 10) := by
      rintro (rfl | hs)
      · exact hlen (by decide)
      · exact hlen hs
    unfold classifyDocument at h
    rw [if_neg hne] at h
    rcases ml with _ | model
    · exact absurd (congrArg ClassifyResult.method h) (by simp [lengthFailureResult])
    · rcases hm : model (preprocessTextC text) with e | v <;>
        simp only [hm] at h <;>
        exact absurd (congrArg ClassifyResult.method h) (by simp [lengthFailureResult])
  · intro hlen
    unfold classifyDocument
    rw [if_pos (Or.inr hlen)]

/-- **C6, counterexample.**  When the ML strategy raises, the raw
exception text (`str(e)`) is placed in the `error` field of the returned
result: it is surfaced to the caller, not swallowed. -/
theorem C6_counterexample :
    (classifyDocument (some (fun _ => .error "division by zero"))
        "a sufficiently long document text").error = some "division by zero" ∧
    (classifyDocument (some (fun _ => .error "division by zero"))
        "a sufficiently long document text").success = false := by
  refine ⟨by decide, by decide⟩

/-- **C6, amended.**  For texts passing the 10-character (stripped) length
guard, `classify_document` never raises and the chain always produces a
result: either a clean success with no error field, or — exactly when the
ML strategy raised — a `success: False` record that carries the raw
exception text in its `error` field while the category and confidence
still come from the rule-based fallback. -/
theorem C6_chain_always_produces_result (ml : Option MlModel) (text : String)
    (h : 10 ≤ (pyStrip text).length) :
    ((classifyDocument ml text).success = true ∧
      (classifyDocument ml text).error = none) ∨
    (∃ model e, ml = some model ∧ model (preprocessTextC text) = .error e ∧
      classifyDocument ml text =
        ⟨false, some e, (ruleBasedClassification text).1,
          (ruleBasedClassification text).2, some "rule_based_fallback"⟩) := by
  have hne : ¬ (text = "" ∨ (pyStrip text).length < 10) := by
    rintro (rfl | hs)
    · exact absurd h (by decide)
    · omega
  unfold classifyDocument
  rw [if_neg hne]
  rcases ml with _ | model
  · exact Or.inl ⟨rfl, rfl⟩
  · rcases hm : model (preprocessTextC text) with e | ⟨cat, conf⟩
    · exact Or.inr ⟨model, e, rfl, hm, by simp [hm]⟩
    · exact Or.inl ⟨by simp [hm], by simp [hm]⟩

/-- **C9, counterexample.**  The ten-character input `"@@@@@@@@@@"`
passes the non-trivial-length gate, but preprocessing removes all of it:
the extractive summary of this non-empty input is the empty string and
the reported compression ratio is `0`, outside `(0, 1]`. -/
theorem C9_counterexample :
    generateSummary ⟨none, fun s _ => s, fun _ => 0⟩ "@@@@@@@@@@" "auto" =
      ⟨true, none, "", "extractive", 10, 0, some (mkRat 0 10)⟩ ∧
    ("@@@@@@@@@@" : String) ≠ "" ∧
    10 ≤ (pyStrip "@@@@@@@@@@").length ∧
    (mkRat 0 10 : ℚ) = 0 := by
  refine ⟨by decide, by decide, by decide, by decide⟩

/-- **C9, amended.**  For every input passing the 10-character (stripped)
length gate and summarized with the extractive, gensim (assuming the
external text-rank algorithm never lengthens its input) or keyword
strategy, `generate_summary` succeeds, the summary is no longer than the
input, and the reported `compression_ratio = len(summary)/len(text)` lies
in `[0, 1]` — it can be `0`, with an empty summary, when preprocessing
strips all content (the ratio is reported on every success path,
including strategy-internal fallbacks). -/
theorem C9_summary_bounds (oracles : SummOracles) (text method : String)
    (hg : ∀ s r, (oracles.gensimSummarize s r).length ≤ s.length)
    (hm : method = "extractive" ∨ method = "gensim" ∨ method = "keyword")
    (hlen : 10 ≤ (pyStrip text).length) :
    (generateSummary oracles text method).success = true ∧
    (generateSummary oracles text method).summaryLength =
      (generateSummary oracles text method).summary.length ∧
    (generateSummary oracles text method).summary.length ≤ text.length ∧
    (generateSummary oracles text method).compressionRatio =
      some (((generateSummary oracles text method).summary.length : ℚ) /
        (text.length : ℚ)) ∧
    (∃ q, (generateSummary oracles text method).compressionRatio = some q ∧
      0 ≤ q ∧ q ≤ 1) := by
  have hguard : ¬ (text = "" ∨ (pyStrip text).length < 10) := by
    rintro (rfl | hs)
    · exact absurd hlen (by decide)
    · omega
  have htextpos : 0 < text.length := by
    have := stripChars_length_le text.toList
    have hlen' : (pyStrip text).length = (stripChars text.toList).length := rfl
    have : 10 ≤ text.length := by
      have h2 : text.length = text.toList.length := rfl
      omega
    omega
  have key : ∀ s : String, s.length ≤ text.length →
      generateSummary oracles text method =
        ⟨true, none, s, method, text.length, s.length,
          some (mkRat s.length text.length)⟩ →
      (generateSummary oracles text method).success = true ∧
      (generateSummary oracles text method).summaryLength =
        (generateSummary oracles text method).summary.length ∧
      (generateSummary oracles text method).summary.length ≤ text.length ∧
      (generateSummary oracles text method).compressionRatio =
        some (((generateSummary oracles text method).summary.length : ℚ) /
          (text.length : ℚ)) ∧
      (∃ q, (generateSummary oracles text method).compressionRatio = some q ∧
        0 ≤ q ∧ q ≤ 1) := by
    intro s hs heq
    rw [heq]
    refine ⟨rfl, rfl, hs, ?_, ?_⟩
    · simp [mkRat_natCast_eq_div]
    · refine ⟨mkRat s.length text.length, rfl, ?_, ?_⟩
      · rw [mkRat_natCast_eq_div]
        positivity
      · rw [mkRat_natCast_eq_div]
        rw [div_le_one (by exact_mod_cast htextpos)]
        exact_mod_cast hs
  rcases hm with rfl | rfl | rfl
  · exact key _ (extractiveSummarization_length_le text 3)
      (by simp [generateSummary, if_neg hguard])
  · exact key _ (gensimSummarization_length_le oracles text (mkRat 3 10) hg)
      (by simp [generateSummary, if_neg hguard])
  · exact key _ (keywordBasedSummarization_length_le oracles.logFn text 3)
      (by simp [generateSummary, if_neg hguard])

/-- Witness for the amended C9 on a concrete four-sentence text with the
extractive strategy. -/
theorem C9_summary_bounds_witness :
    (generateSummary ⟨none, fun s _ => s, fun _ => 0⟩
        "First point here. Second point now. Third item set. Fourth line closes."
        "extractive").success = true ∧
    (generateSummary ⟨none, fun s _ => s, fun _ => 0⟩
        "First point here. Second point now. Third item set. Fourth line closes."
        "extractive").summaryLength =
      (generateSummary ⟨none, fun s _ => s, fun _ => 0⟩
        "First point here. Second point now. Third item set. Fourth line closes."
        "extractive").summary.length ∧
    (generateSummary ⟨none, fun s _ => s, fun _ => 0⟩
        "First point here. Second point now. Third item set. Fourth line closes."
        "extractive").summary.length ≤
      ("First point here. Second point now. Third item set. Fourth line closes." : String).length ∧
    (generateSummary ⟨none, fun s _ => s, fun _ => 0⟩
        "First point here. Second point now. Third item set. Fourth line closes."
        "extractive").compressionRatio =
      some (((generateSummary ⟨none, fun s _ => s, fun _ => 0⟩
        "First point here. Second point now. Third item set. Fourth line closes."
        "extractive").summary.length : ℚ) /
        (("First point here. Second point now. Third item set. Fourth line closes." : String).length : ℚ)) ∧
    (∃ q, (generateSummary ⟨none, fun s _ => s, fun _ => 0⟩
        "First point here. Second point now. Third item set. Fourth line closes."
        "extractive").compressionRatio = some q ∧ 0 ≤ q ∧ q ≤ 1) :=
  C9_summary_bounds ⟨none, fun s _ => s, fun _ => 0⟩
    "First point here. Second point now. Third item set. Fourth line closes."
    "extractive" (fun s r => le_rfl) (Or.inl rfl) (by decide)

/-- **C10, counterexample.**  The normalizer is not idempotent: on the
input `"axing"` the surviving token stems (Porter step 1b) to `"ax"`,
which the second pass's minimum-length filter then removes, so
`normalize(normalize_to_text(normalize(x)))` is empty while
`normalize(x)` is `"ax"`. -/
theorem C10_counterexample :
    preprocessTextC (preprocessTextC "axing") ≠ preprocessTextC "axing" ∧
    preprocessTextC "axing" = "ax" ∧
    preprocessTextC (preprocessTextC "axing") = "" := by
  refine ⟨by decide, by decide, by decide⟩

/-- **C10, amended.**  `preprocess_text` is a pure function of its input,
and it is idempotent exactly on inputs whose surviving tokens have stems
that are again surviving tokens: non-empty, fixed by lower-casing, made
of characters the letter filter keeps, whitespace-free, not stop words,
longer than 2 characters, and fixed points of the stemmer.  (Porter
stemming violates these conditions — see the counterexample — so
idempotence fails on the source's concrete stemmer.) -/
theorem C10_idempotent_of_stem_closed (stem : List Char → List Char)
    (x : String)
    (h : ∀ t ∈ keptTokens x,
      stem t ≠ [] ∧
      (∀ c ∈ stem t, pyLowerChar c = c) ∧
      (∀ c ∈ stem t, (c.isAlpha || isPyWs c) = true) ∧
      (∀ c ∈ stem t, isPyWs c = false) ∧
      (¬ stopWords.contains (⟨stem t⟩ : String) ∧ 2 < (stem t).length) ∧
      stem (stem t) = stem t) :
    preprocessTextWith stem (preprocessTextWith stem x) =
      preprocessTextWith stem x := by
  have hkept : keptTokens (preprocessTextWith stem x) =
      (keptTokens x).map stem := by
    show keptTokens ⟨List.intercalate [' '] ((keptTokens x).map stem)⟩ = _
    refine keptTokens_intercalate _ ?_ ?_ ?_ ?_ ?_ <;>
      intro w hw <;>
      obtain ⟨t, ht, rfl⟩ := List.mem_map.mp hw
    · exact (h t ht).1
    · exact (h t ht).2.1
    · exact (h t ht).2.2.1
    · exact (h t ht).2.2.2.1
    · exact (h t ht).2.2.2.2.1
  show (⟨List.intercalate [' ']
      ((keptTokens (preprocessTextWith stem x)).map stem)⟩ : String) = _
  rw [hkept, List.map_map,
    show (keptTokens x).map (stem ∘ stem) = (keptTokens x).map stem from
      List.map_congr_left (fun t ht => (h t ht).2.2.2.2.2)]
  rfl

/-- Witness for the amended C10: with the identity stemmer on
`"hello world"` both tokens satisfy the closure conditions, and the
normalizer is idempotent there. -/
theorem C10_idempotent_of_stem_closed_witness :
    preprocessTextWith (fun t => t)
        (preprocessTextWith (fun t => t) "hello world") =
      preprocessTextWith (fun t => t) "hello world" :=
  C10_idempotent_of_stem_closed (fun t => t) "hello world" (by decide)

/-- Witness for the amended C6 at a raising ML oracle and a concrete
long-enough text. -/
theorem C6_chain_always_produces_result_witness :
    (((classifyDocument (some (fun _ => .error "boom"))
        "this agreement is long enough").success = true ∧
      (classifyDocument (some (fun _ => .error "boom"))
        "this agreement is long enough").error = none) ∨
    (∃ model e, (some (fun _ => .error "boom") : Option MlModel) = some model ∧
      model (preprocessTextC "this agreement is long enough") = .error e ∧
      classifyDocument (some (fun _ => .error "boom"))
          "this agreement is long enough" =
        ⟨false, some e,
          (ruleBasedClassification "this agreement is long enough").1,
          (ruleBasedClassification "this agreement is long enough").2,
          some "rule_based_fallback"⟩)) :=
  C6_chain_always_produces_result (some (fun _ => .error "boom"))
    "this agreement is long enough" (by decide)

end KMRL
